import Mathlib

/-!
Shallow embedding of the 2D platformer in `src/main.js`.

JavaScript numbers are modelled as rationals (`ℚ`), character grids as
`List (List Char)` (JS builds them as arrays of characters; the template
strings produced by `row.join('')` and re-split by `row.split('')` carry the
same character data).  `Math.random()` is modelled as an indexed stream
`Nat → ℚ` together with a consumption counter, so that one construction run
consumes successive values in source order.  In-place mutation is modelled by
explicit state records threaded through the same control flow as the source.
-/

/-- Write one character cell of a grid (`map[r][c] = ch`); writes outside the
grid are dropped (`List.set` is the identity out of range). -/
def setCell (m : List (List Char)) (r c : Nat) (ch : Char) : List (List Char) :=
  m.set r ((m.getD r []).set c ch)

/-- Read one character cell of a grid (`map[r][c]`), blank when out of range. -/
def getCell (m : List (List Char)) (r c : Nat) : Char :=
  (m.getD r []).getD c ' '

/-- Count the occurrences of a character in a grid. -/
def countCh (m : List (List Char)) (ch : Char) : Nat :=
  m.foldl (fun n row => n + row.foldl (fun k c => if c = ch then k + 1 else k) 0) 0

/-- Closed integer range `a..b` as a list (empty when `b < a`); models the JS
loops `for (i = a; i <= b; i++)`. -/
def intRange (a b : ℤ) : List ℤ :=
  (List.range (b + 1 - a).toNat).map (fun k => a + (k : ℤ))

/-- Snapshot of the `Input` manager for one tick: the level-triggered
directional flags and the edge-triggered outcome of `Input.consumeJump()`. -/
structure InputState where
  left : Bool
  right : Bool
  down : Bool
  jump : Bool
deriving DecidableEq

/-- State of the `Player` class (`src/main.js` lines 111-134).  The constant
fields `acc = 0.4`, `maxSpeed = 5.5`, `jumpForce = 9`, `gravity = 0.45` and
`slideDuration = 15` are never reassigned in the source and appear as literal
rationals in the step functions below. -/
structure Player where
  x : ℚ
  y : ℚ
  width : ℚ
  height : ℚ
  baseHeight : ℚ
  velX : ℚ
  velY : ℚ
  onGround : Bool
  onWall : Bool
  wallDir : ℚ
  sliding : Bool
  slideTimer : ℚ
  dive : Bool
  coyoteTimer : ℚ
  jumpBuffer : ℚ
deriving DecidableEq

/-- A coin entry pushed by `Level.parse` (line 308). -/
structure Coin where
  x : ℚ
  y : ℚ
  collected : Bool
deriving DecidableEq

/-- A moving hazard entry pushed by `Level.parse` (lines 316-326). -/
structure Hazard where
  type : Char
  baseX : ℚ
  y : ℚ
  x : ℚ
  width : ℚ
  height : ℚ
  range : ℚ
  dir : ℚ
  speed : ℚ
deriving DecidableEq

/-- A `Level` instance: grid, dimensions, tile size, spawn point, coins and
moving hazards (lines 278-291). -/
structure Level where
  map : List (List Char)
  rows : Nat
  cols : Nat
  tileSize : ℚ
  spawnX : ℚ
  spawnY : ℚ
  coins : List Coin
  hazards : List Hazard
deriving DecidableEq

/-- Mutable state threaded through `Level.parse` (lines 298-331): the map with
consumed tokens blanked, the spawn point, the accumulated coin and hazard
lists, and the number of `Math.random()` values consumed so far. -/
structure ParseState where
  map : List (List Char)
  spawnX : ℚ
  spawnY : ℚ
  coins : List Coin
  hazards : List Hazard
  rngIdx : Nat
deriving DecidableEq

/-- One iteration of the `Level.parse` double loop (lines 299-330) at cell
`pos = (y, x)`.  A moving hazard consumes two random values, first for its
speed (`2 + Math.random() * 1`, line 315) and then for its direction
(`Math.random() < 0.5 ? -1 : 1`, line 324). -/
def parseCell (rand : Nat → ℚ) (ts : ℚ) (pos : Nat × Nat) (st : ParseState) : ParseState :=
  let yy := pos.1
  let xx := pos.2
  let ch := getCell st.map yy xx
  if ch = 'P' then
    { st with spawnX := (xx : ℚ) * ts, spawnY := (yy : ℚ) * ts,
              map := setCell st.map yy xx ' ' }
  else if ch = 'C' then
    { st with
        coins := st.coins ++
          [{ x := (xx : ℚ) * ts + ts / 2, y := (yy : ℚ) * ts + ts / 2, collected := false }],
        map := setCell st.map yy xx ' ' }
  else if ch = 'H' then
    let baseX := (xx : ℚ) * ts
    let baseY := (yy : ℚ) * ts
    let speed := 2 + rand st.rngIdx * 1
    let dir : ℚ := if rand (st.rngIdx + 1) < 1 / 2 then -1 else 1
    { st with
        hazards := st.hazards ++
          [{ type := 'H', baseX := baseX, y := baseY, x := baseX,
             width := ts, height := ts, range := ts * 3, dir := dir, speed := speed }],
        map := setCell st.map yy xx ' ',
        rngIdx := st.rngIdx + 2 }
  else st

/-- The cells `(y, x)` visited by the `Level.parse` double loop, in source
order (outer loop over rows, inner loop over columns). -/
def levelCells (rows cols : Nat) : List (Nat × Nat) :=
  (List.range rows).flatMap (fun y => (List.range cols).map (fun x => (y, x)))

/-- The `Level` constructor (lines 279-291) followed by `parse`: copy the
template grid, record dimensions and tile size 40, then scan every cell. -/
def Level.new (mapArray : List (List Char)) (rand : Nat → ℚ) : Level :=
  let rows := mapArray.length
  let cols := (mapArray.getD 0 []).length
  let ts : ℚ := 40
  let st := (levelCells rows cols).foldl (fun st c => parseCell rand ts c st)
    { map := mapArray, spawnX := 0, spawnY := 0, coins := [], hazards := [], rngIdx := 0 }
  { map := st.map, rows := rows, cols := cols, tileSize := ts,
    spawnX := st.spawnX, spawnY := st.spawnY, coins := st.coins, hazards := st.hazards }

/-- One hazard update of `Level.updateHazards` (lines 338-351): advance by
`dir * speed`, clamp to `baseX ± range` and flip direction past a boundary. -/
def hazardStep (hz : Hazard) : Hazard :=
  if hz.type = 'H' then
    let x1 := hz.x + hz.dir * hz.speed
    if x1 < hz.baseX - hz.range then
      { hz with x := hz.baseX - hz.range, dir := hz.dir * (-1) }
    else if x1 > hz.baseX + hz.range then
      { hz with x := hz.baseX + hz.range, dir := hz.dir * (-1) }
    else
      { hz with x := x1 }
  else hz

/-- The `Level.updateHazards(dt)` tick.  As in the source, `dt` is accepted
but does not enter the position update. -/
def Level.updateHazards (dt : ℚ) (lvl : Level) : Level :=
  { lvl with hazards := lvl.hazards.map hazardStep }

/-- The `Level.isSolid` predicate (lines 358-360). -/
def isSolid (ch : Char) : Bool :=
  ch = '#' || ch = 'X' || ch = 'B'

/-- Mutable locals of `Level.collide` (lines 371-381) plus the fields of the
player and level that the `checkTile` closure mutates in place
(`player.velX`, `player.velY`, `this.map`). -/
structure CollState where
  px : ℚ
  py : ℚ
  velX : ℚ
  velY : ℚ
  onGround : Bool
  onWall : Bool
  wallDir : ℚ
  bounce : Bool
  die : Bool
  win : Bool
  map : List (List Char)
deriving DecidableEq

/-- The return value of `Level.collide` (line 501), extended with the
in-place mutations it performs (zeroed velocities on the player, broken
tiles in the map, collected flags on the coins). -/
structure CollResult where
  x : ℚ
  y : ℚ
  velX : ℚ
  velY : ℚ
  onGround : Bool
  onWall : Bool
  wallDir : ℚ
  bounce : Bool
  die : Bool
  win : Bool
  collectedCoin : Bool
  map : List (List Char)
  coins : List Coin
deriving DecidableEq

/-- The `checkTile(tx, ty, horizontal)` closure of `Level.collide`
(lines 387-432).  Out-of-range queries return the state unchanged (line 388).
Note that the bounce test at line 421 reads `player.velY` after the vertical
branch has already zeroed it. -/
def checkTile (rows cols : Nat) (ts w h : ℚ) (dive : Bool) (tx ty : ℤ)
    (horizontal : Bool) (st : CollState) : CollState :=
  if ty < 0 ∨ (rows : ℤ) ≤ ty ∨ tx < 0 ∨ (cols : ℤ) ≤ tx then st
  else
    let ch := getCell st.map ty.toNat tx.toNat
    if isSolid ch then
      let tileX := (tx : ℚ) * ts
      let tileY := (ty : ℚ) * ts
      if ch = 'X' ∧ dive ∧ st.velY > 0 then
        { st with map := setCell st.map ty.toNat tx.toNat ' ' }
      else if horizontal then
        if st.velX > 0 then
          { st with px := tileX - w, velX := 0, onWall := true, wallDir := 1 }
        else if st.velX < 0 then
          { st with px := tileX + ts, velX := 0, onWall := true, wallDir := -1 }
        else st
      else
        let st1 :=
          if st.velY > 0 then { st with py := tileY - h, velY := 0, onGround := true }
          else if st.velY < 0 then { st with py := tileY + ts, velY := 0 }
          else st
        if ch = 'B' ∧ st1.velY > 0 then { st1 with bounce := true } else st1
    else if ch = 'S' then { st with die := true }
    else if ch = 'F' then { st with win := true }
    else st

/-- The horizontal sweep of `Level.collide` (lines 434-454): the row span is
taken from the proposed `nextY`, the scanned column from the proposed `nextX`
plus the moving edge, and `checkTile` is folded over the occupied rows. -/
def horizPass (lvl : Level) (p : Player) (nextX nextY : ℚ) : CollState :=
  let ts := lvl.tileSize
  let st0 : CollState :=
    { px := nextX, py := nextY, velX := p.velX, velY := p.velY,
      onGround := false, onWall := false, wallDir := 0,
      bounce := false, die := false, win := false, map := lvl.map }
  let top := ⌊nextY / ts⌋
  let bottom := ⌊(nextY + p.height - 1) / ts⌋
  if p.velX ≠ 0 then
    if p.velX > 0 then
      let col := ⌊(nextX + p.width) / ts⌋
      (intRange top bottom).foldl
        (fun st row => checkTile lvl.rows lvl.cols ts p.width p.height p.dive col row true st) st0
    else
      let col := ⌊nextX / ts⌋
      (intRange top bottom).foldl
        (fun st row => checkTile lvl.rows lvl.cols ts p.width p.height p.dive col row true st) st0
  else st0

/-- The vertical sweep of `Level.collide` (lines 456-475), parameterised by
the column span `left..right` computed by the caller. -/
def vertPass (lvl : Level) (p : Player) (left right : ℤ) (st : CollState) : CollState :=
  let ts := lvl.tileSize
  if st.velY ≠ 0 then
    if st.velY > 0 then
      let row := ⌊(st.py + p.height) / ts⌋
      (intRange left right).foldl
        (fun s col => checkTile lvl.rows lvl.cols ts p.width p.height p.dive col row false s) st
    else
      let row := ⌊st.py / ts⌋
      (intRange left right).foldl
        (fun s col => checkTile lvl.rows lvl.cols ts p.width p.height p.dive col row false s) st
  else st

/-- The coin pickup loop of `Level.collide` (lines 478-488): axis-wise
half-tile box test around the body centre, marking coins collected. -/
def coinPass (ts px py w h : ℚ) (coins : List Coin) : List Coin × Bool :=
  coins.foldl
    (fun acc coin =>
      if coin.collected = false ∧ |px + w / 2 - coin.x| < ts / 2 ∧
          |py + h / 2 - coin.y| < ts / 2 then
        (acc.1 ++ [{ coin with collected := true }], true)
      else (acc.1 ++ [coin], acc.2))
    ([], false)

/-- The moving-hazard AABB loop of `Level.collide` (lines 490-499). -/
def hazardPass (px py w h : ℚ) (hazards : List Hazard) (die0 : Bool) : Bool :=
  hazards.foldl
    (fun d hz =>
      if px < hz.x + hz.width ∧ px + w > hz.x ∧ py < hz.y + hz.height ∧ py + h > hz.y then
        true
      else d)
    die0

/-- `Level.collide(player, nextX, nextY)` (lines 371-502).  The horizontal
sweep runs first on the proposed position; the vertical column span
`left..right` (lines 457-458) is then computed from the possibly corrected
`px`, after which coins and moving hazards are tested. -/
def Level.collide (lvl : Level) (p : Player) (nextX nextY : ℚ) : CollResult :=
  let ts := lvl.tileSize
  let st1 := horizPass lvl p nextX nextY
  let left := ⌊st1.px / ts⌋
  let right := ⌊(st1.px + p.width - 1) / ts⌋
  let st2 := vertPass lvl p left right st1
  let cp := coinPass ts st2.px st2.py p.width p.height lvl.coins
  let dieFinal := hazardPass st2.px st2.py p.width p.height lvl.hazards st2.die
  { x := st2.px, y := st2.py, velX := st2.velX, velY := st2.velY,
    onGround := st2.onGround, onWall := st2.onWall, wallDir := st2.wallDir,
    bounce := st2.bounce, die := dieFinal, win := st2.win,
    collectedCoin := cp.2, map := st2.map, coins := cp.1 }

/-- Modelled from the spec: the collision resolver as the specification words
it for claim C3, identical to `Level.collide` except that the vertical
sweep's column span is computed from the proposed `nextX` instead of the
horizontally corrected `px`.  Used only to compare the source resolver against
the claimed independent-axes algorithm. -/
def collideIndepSpec (lvl : Level) (p : Player) (nextX nextY : ℚ) : CollResult :=
  let ts := lvl.tileSize
  let st1 := horizPass lvl p nextX nextY
  let left := ⌊nextX / ts⌋
  let right := ⌊(nextX + p.width - 1) / ts⌋
  let st2 := vertPass lvl p left right st1
  let cp := coinPass ts st2.px st2.py p.width p.height lvl.coins
  let dieFinal := hazardPass st2.px st2.py p.width p.height lvl.hazards st2.die
  { x := st2.px, y := st2.py, velX := st2.velX, velY := st2.velY,
    onGround := st2.onGround, onWall := st2.onWall, wallDir := st2.wallDir,
    bounce := st2.bounce, die := dieFinal, win := st2.win,
    collectedCoin := cp.2, map := st2.map, coins := cp.1 }

/-- The directional input value `move` of `Player.update` (lines 144-146). -/
def moveOf (inp : InputState) : ℚ :=
  (if inp.right then 1 else 0) - (if inp.left then 1 else 0)

/-- Horizontal acceleration, `this.velX += move * this.acc` (line 148);
`this.acc = 0.4` and no `dt` factor appears in the source. -/
def accelStep (inp : InputState) (p : Player) : Player :=
  { p with velX := p.velX + moveOf inp * (2 / 5) }

/-- Friction when there is no directional input (lines 150-153). -/
def frictionStep (inp : InputState) (p : Player) : Player :=
  if moveOf inp = 0 then
    let v := p.velX * (4 / 5)
    { p with velX := if |v| < 1 / 20 then 0 else v }
  else p

/-- Horizontal speed cap to `±maxSpeed = ±5.5` (lines 155-156). -/
def clampStep (p : Player) : Player :=
  if p.velX > 11 / 2 then { p with velX := 11 / 2 }
  else if p.velX < -(11 / 2) then { p with velX := -(11 / 2) }
  else p

/-- Slide initiation (lines 159-167): grounded, down held, not already
sliding and `|velX| > 2`; halves the height keeping the bottom edge fixed and
adds a one-off `±1` speed boost in the current direction. -/
def slideStartStep (inp : InputState) (p : Player) : Player :=
  if p.onGround ∧ inp.down ∧ ¬p.sliding ∧ |p.velX| > 2 then
    { p with sliding := true, slideTimer := 15,
             height := p.baseHeight / 2,
             y := p.y + (p.baseHeight - p.baseHeight / 2),
             velX := p.velX + (if p.velX > 0 then 1 else -1) }
  else p

/-- Slide continuation and termination (lines 169-180): tick the timer down
by `dt`, decay `velX` by 0.98, and end the slide (restoring the height and
bottom edge) when the timer runs out or down is released. -/
def slideHoldStep (dt : ℚ) (inp : InputState) (p : Player) : Player :=
  if p.sliding then
    let q := { p with slideTimer := p.slideTimer - dt, velX := p.velX * (49 / 50) }
    if q.slideTimer ≤ 0 ∨ ¬inp.down then
      { q with sliding := false, height := q.baseHeight, y := q.y - (q.baseHeight - q.height) }
    else q
  else p

/-- Dive start (lines 183-186): airborne with down held and not yet diving
sets `velY = 12`. -/
def diveStep (inp : InputState) (p : Player) : Player :=
  if ¬p.onGround ∧ inp.down ∧ ¬p.dive then { p with dive := true, velY := 12 } else p

/-- Coyote timer update (lines 189-193). -/
def coyoteStep (dt : ℚ) (p : Player) : Player :=
  if p.onGround then { p with coyoteTimer := 6 }
  else if p.coyoteTimer > 0 then { p with coyoteTimer := p.coyoteTimer - dt }
  else p

/-- Jump buffer update (lines 196-200), with `inp.jump` the outcome of
`Input.consumeJump()` this tick. -/
def bufferStep (dt : ℚ) (inp : InputState) (p : Player) : Player :=
  if inp.jump then { p with jumpBuffer := 6 }
  else if p.jumpBuffer > 0 then { p with jumpBuffer := p.jumpBuffer - dt }
  else p

/-- Jump resolution (lines 203-217): a buffered jump performs a ground jump
while the coyote timer is positive, otherwise a wall jump when wall contact
is flagged (`velX = -wallDir * maxSpeed * 0.8`). -/
def jumpStep (p : Player) : Player :=
  if p.jumpBuffer > 0 then
    if p.coyoteTimer > 0 then
      { p with velY := -9, onGround := false, coyoteTimer := 0, jumpBuffer := 0 }
    else if p.onWall then
      { p with velY := -9 * (9 / 10), velX := -p.wallDir * (11 / 2 * (4 / 5)),
               onWall := false, jumpBuffer := 0 }
    else p
  else p

/-- Gravity with terminal velocity (lines 219-221): `velY += 0.45`, clamped
to at most 15; no `dt` factor appears in the source. -/
def gravityStep (p : Player) : Player :=
  let v := p.velY + 9 / 20
  { p with velY := if v > 15 then 15 else v }

/-- The velocity/state phase of `Player.update` (lines 143-221), everything
up to and including the gravity clamp, in source order. -/
def velPhase (inp : InputState) (dt : ℚ) (p : Player) : Player :=
  gravityStep (jumpStep (bufferStep dt inp (coyoteStep dt (diveStep inp
    (slideHoldStep dt inp (slideStartStep inp
      (clampStep (frictionStep inp (accelStep inp p)))))))))

/-- The outcome of one `Player.update` tick: the new player, the level with
any in-place mutations (broken tiles, collected coins), and the gameplay
events the source forwards to `Game` (death, win, coin pickup). -/
structure TickResult where
  player : Player
  level : Level
  died : Bool
  won : Bool
  gotCoin : Bool
deriving DecidableEq

/-- `Player.update(dt, level)` (lines 142-255): run the velocity phase,
propose `position + velocity`, resolve against the level, then apply bounce,
death, win, coin and dive-reset reactions in source order (death and win
abort the tick early). -/
def Player.update (dt : ℚ) (inp : InputState) (lvl : Level) (p0 : Player) : TickResult :=
  let p1 := velPhase inp dt p0
  let nextX := p1.x + p1.velX
  let nextY := p1.y + p1.velY
  let coll := Level.collide lvl p1 nextX nextY
  let p2 := { p1 with x := coll.x, y := coll.y, onGround := coll.onGround,
                      onWall := coll.onWall, wallDir := coll.wallDir,
                      velX := coll.velX, velY := coll.velY }
  let lvl2 := { lvl with map := coll.map, coins := coll.coins }
  let p3 := if coll.bounce then { p2 with velY := -9 * (3 / 2), dive := false } else p2
  if coll.die then { player := p3, level := lvl2, died := true, won := false, gotCoin := false }
  else if coll.win then
    { player := p3, level := lvl2, died := false, won := true, gotCoin := false }
  else
    let p4 := if p3.onGround then { p3 with dive := false } else p3
    { player := p4, level := lvl2, died := false, won := false, gotCoin := coll.collectedCoin }

/-- The blank grid, ground row, spawn and flag of `Game.generateLevel`
(lines 662-677); `height = 12`, `width = 40`. -/
def genBase : List (List Char) :=
  let blank := List.replicate 12 (List.replicate 40 ' ')
  let ground := (List.range 40).foldl (fun m c => setCell m (12 - 1) c '#') blank
  let withSpawn := setCell ground (12 - 2) 1 'P'
  setCell withSpawn (12 - 2) (40 - 2) 'F'

/-- Static hazard placement of `Game.generateLevel` (lines 679-685), with the
shift-by-5 fallback when the computed column lands on the flag column. -/
def genHazards (index : Nat) (m : List (List Char)) : List (List Char) :=
  (List.range (2 + index / 10)).foldl
    (fun mm hh =>
      let col := (index * 7 + hh * 11) % (40 - 4) + 2
      let col2 := if col = 40 - 2 then (col + 5) % (40 - 4) + 2 else col
      setCell mm (12 - 2) col2 'S')
    m

/-- Bounce pad placement of `Game.generateLevel` (lines 687-690): present on
every third level, at the horizontal centre column. -/
def genBounce (index : Nat) (m : List (List Char)) : List (List Char) :=
  if index % 3 = 0 then setCell m (12 - 2) (40 / 2) 'B' else m

/-- Breakable tile placement of `Game.generateLevel` (lines 692-696). -/
def genBreakables (index : Nat) (m : List (List Char)) : List (List Char) :=
  (List.range (index % 3)).foldl
    (fun mm b => setCell mm (12 - 3) ((index * 5 + b * 13) % (40 - 6) + 3) 'X')
    m

/-- Coin placement of `Game.generateLevel` (lines 698-702). -/
def genCoins (index : Nat) (m : List (List Char)) : List (List Char) :=
  (List.range 3).foldl
    (fun mm c => setCell mm (12 - 4) ((index * 3 + c * 13) % (40 - 6) + 3) 'C')
    m

/-- Floating platform placement of `Game.generateLevel` (lines 704-710):
each platform is a 4-tile solid strip. -/
def genPlatforms (index : Nat) (m : List (List Char)) : List (List Char) :=
  (List.range (2 + index % 3)).foldl
    (fun mm p =>
      let col := (index * 6 + p * 12) % (40 - 10) + 5
      (List.range 4).foldl (fun m2 k => setCell m2 (12 - 5) (col + k) '#') mm)
    m

/-- Moving hazard placement of `Game.generateLevel` (lines 712-716). -/
def genMoving (index : Nat) (m : List (List Char)) : List (List Char) :=
  (List.range (index % 2)).foldl
    (fun mm mh => setCell mm (12 - 4) ((index * 4 + mh * 17) % (40 - 10) + 5) 'H')
    m

/-- `Game.generateLevel(index)` (lines 661-719): the placement steps applied
in source order to the blank grid.  The JS function finally joins each row to
a string; the template is modelled as the same character data. -/
def Game.generateLevel (index : Nat) : List (List Char) :=
  genMoving index (genPlatforms index (genCoins index (genBreakables index
    (genBounce index (genHazards index genBase)))))

/-- The slice of the `Game` orchestrator state that level lifecycle touches:
templates built once by `buildLevels`, the current level index, and the live
`Level` instance. -/
structure GameState where
  levels : List (List (List Char))
  currentLevelIndex : Nat
  level : Level
deriving DecidableEq

/-- `Game.startGame(levelIndex)` (lines 878-897) restricted to the modelled
state: clamp an out-of-range index to 0, then build a fresh `Level` instance
from the stored template, consuming the ambient random stream. -/
def Game.startGame (rand : Nat → ℚ) (levelIndex : Nat) (g : GameState) : GameState :=
  let idx := if g.levels.length ≤ levelIndex then 0 else levelIndex
  { g with currentLevelIndex := idx, level := Level.new (g.levels.getD idx []) rand }

/-- `Game.resetLevel()` (lines 903-905): restart the current level. -/
def Game.resetLevel (rand : Nat → ℚ) (g : GameState) : GameState :=
  Game.startGame rand g.currentLevelIndex g

/-- The in-play mutations gameplay can apply to a `Level` instance: a
breakable tile destroyed by a dive (`checkTile`, line 395) and a coin marked
collected (line 484). -/
inductive PlayMut where
  | breakTile (r c : Nat)
  | collectCoin (i : Nat)
deriving DecidableEq

/-- Apply one in-play mutation to the live level of the game state. -/
def applyMut (m : PlayMut) (g : GameState) : GameState :=
  match m with
  | PlayMut.breakTile r c =>
      { g with level := { g.level with map := setCell g.level.map r c ' ' } }
  | PlayMut.collectCoin i =>
      { g with level := { g.level with
          coins := g.level.coins.set i
            (match g.level.coins.get? i with
             | some cn => { cn with collected := true }
             | none => { x := 0, y := 0, collected := true }) } }

/-- Apply a sequence of in-play mutations in order. -/
def applyMuts (ms : List PlayMut) (g : GameState) : GameState :=
  ms.foldl (fun gg m => applyMut m gg) g

/-- The best-time update performed by `Game.completeLevel` (lines 978-981):
write the finish time only when no best exists or it is strictly smaller. -/
def Game.completeLevelBest (bestTimes : Nat → Option ℚ) (levelIndex : Nat)
    (finishTime : ℚ) : Nat → Option ℚ :=
  fun i =>
    if i = levelIndex then
      match bestTimes levelIndex with
      | none => some finishTime
      | some best => if finishTime < best then some finishTime else some best
    else bestTimes i

/-- A 1×1 blank level used as a collision-free fixture for concrete ticks. -/
def emptyLevel : Level :=
  { map := [[' ']], rows := 1, cols := 1, tileSize := 40,
    spawnX := 0, spawnY := 0, coins := [], hazards := [] }

/-- Grounded player at the horizontal speed cap, used to exercise a slide
initiation tick. -/
def pSlide : Player :=
  { x := 1000, y := 500, width := 24, height := 40, baseHeight := 40,
    velX := 11 / 2, velY := 0, onGround := true, onWall := false, wallDir := 0,
    sliding := false, slideTimer := 0, dive := false, coyoteTimer := 6, jumpBuffer := 0 }

/-- Input snapshot holding right and down. -/
def inpRightDown : InputState :=
  { left := false, right := true, down := true, jump := false }

/-- Airborne player with zero velocity, used to measure one tick's increments. -/
def pAir : Player :=
  { x := 1000, y := 500, width := 24, height := 40, baseHeight := 40,
    velX := 0, velY := 0, onGround := false, onWall := false, wallDir := 0,
    sliding := false, slideTimer := 0, dive := false, coyoteTimer := 0, jumpBuffer := 0 }

/-- Input snapshot holding only right. -/
def inpRight : InputState :=
  { left := false, right := true, down := false, jump := false }

/-- 4×4 level with a solid block at row 2, column 2 and a static hazard tile
at row 3, column 2.  Moving right into the block clamps the proposed x, after
which the vertical sweep's column span no longer reaches column 2. -/
def lvlWall : Level :=
  { map := [[' ', ' ', ' ', ' '], [' ', ' ', ' ', ' '],
            [' ', ' ', '#', ' '], [' ', ' ', 'S', ' ']],
    rows := 4, cols := 4, tileSize := 40,
    spawnX := 0, spawnY := 0, coins := [], hazards := [] }

/-- Player moving right and down toward the wall of `lvlWall`. -/
def pWall : Player :=
  { x := 57, y := 75, width := 24, height := 40, baseHeight := 40,
    velX := 5, velY := 5, onGround := false, onWall := false, wallDir := 0,
    sliding := false, slideTimer := 0, dive := false, coyoteTimer := 0, jumpBuffer := 0 }

/-- Constant-zero random stream. -/
def rngZero : Nat → ℚ := fun _ => 0

/-- Random stream differing from `rngZero` only at index 1, the draw that
decides the first hazard's direction. -/
def rngDirFlip : Nat → ℚ := fun n => if n = 1 then 1 / 2 else 0

/-- One-cell template holding a single moving-hazard marker. -/
def tmplH : List (List Char) := [['H']]

/-- The hazard of `Level.new tmplH rngZero` after one `updateHazards` tick:
speed 2, direction -1, so its x moved from the base 0 to -2. -/
def hzWitness : Hazard :=
  { type := 'H', baseX := 0, y := 0, x := -2, width := 40, height := 40,
    range := 120, dir := -1, speed := 2 }

/-- A collision scan state used to witness out-of-range tile queries. -/
def stWitness : CollState :=
  { px := 7, py := 8, velX := 3, velY := 4, onGround := false, onWall := false,
    wallDir := 0, bounce := false, die := false, win := false, map := [['#']] }

/-- Game state with one single-coin template loaded, for the reset witness. -/
def gWitness : GameState :=
  { levels := [[['C']]], currentLevelIndex := 0, level := Level.new [[' ']] rngZero }

/-- Stored best times holding a record only for level 0. -/
def btWitness : Nat → Option ℚ := fun i => if i = 0 then some 10 else none

/-- Equality of every `Hazard` field except the two randomised ones
(`speed` and `dir`). -/
def hazardShapeEq (a b : Hazard) : Prop :=
  a.type = b.type ∧ a.baseX = b.baseX ∧ a.y = b.y ∧ a.x = b.x ∧
    a.width = b.width ∧ a.height = b.height ∧ a.range = b.range

/-- Relation between two parse runs of the same template under different
random streams: everything agrees except hazard speeds and directions. -/
def parseRel (s t : ParseState) : Prop :=
  s.map = t.map ∧ s.spawnX = t.spawnX ∧ s.spawnY = t.spawnY ∧
    s.coins = t.coins ∧ s.rngIdx = t.rngIdx ∧
    List.Forall₂ hazardShapeEq s.hazards t.hazards

/-! ### General helper lemmas -/

theorem checkTile_oob (rows cols : Nat) (ts w h : ℚ) (dive : Bool) (tx ty : ℤ)
    (horizontal : Bool) (st : CollState)
    (hout : ty < 0 ∨ (rows : ℤ) ≤ ty ∨ tx < 0 ∨ (cols : ℤ) ≤ tx) :
    checkTile rows cols ts w h dive tx ty horizontal st = st := by
  unfold checkTile
  rw [if_pos hout]

theorem foldl_fixed {α β : Type} (f : β → α → β) (l : List α)
    (hf : ∀ b a, f b a = b) : ∀ st : β, l.foldl f st = st := by
  induction l with
  | nil => intro st; rfl
  | cons a l ih => intro st; simp only [List.foldl_cons, hf]; exact ih st

theorem horizPass_empty_far (p : Player) (nX nY : ℚ)
    (h1 : 1 ≤ ⌊(nX + p.width) / 40⌋) (h2 : 1 ≤ ⌊nX / 40⌋) :
    horizPass emptyLevel p nX nY =
      { px := nX, py := nY, velX := p.velX, velY := p.velY,
        onGround := false, onWall := false, wallDir := 0,
        bounce := false, die := false, win := false, map := [[' ']] } := by
  unfold horizPass emptyLevel
  split_ifs with hne hpos
  · exact foldl_fixed _ _ (fun st row => checkTile_oob _ _ _ _ _ _ _ _ _ _
      (Or.inr (Or.inr (Or.inr (by simpa using h1))))) _
  · exact foldl_fixed _ _ (fun st row => checkTile_oob _ _ _ _ _ _ _ _ _ _
      (Or.inr (Or.inr (Or.inr (by simpa using h2))))) _
  · rfl

theorem vertPass_empty_far (p : Player) (left right : ℤ) (st : CollState)
    (h1 : 1 ≤ ⌊(st.py + p.height) / 40⌋) (h2 : 1 ≤ ⌊st.py / 40⌋) :
    vertPass emptyLevel p left right st = st := by
  unfold vertPass emptyLevel
  split_ifs with hne hpos
  · exact foldl_fixed _ _ (fun s col => checkTile_oob _ _ _ _ _ _ _ _ _ _
      (Or.inr (Or.inl (by simpa using h1)))) _
  · exact foldl_fixed _ _ (fun s col => checkTile_oob _ _ _ _ _ _ _ _ _ _
      (Or.inr (Or.inl (by simpa using h2)))) _
  · rfl

theorem collide_empty_far (p : Player) (nX nY : ℚ)
    (hx1 : 1 ≤ ⌊(nX + p.width) / 40⌋) (hx2 : 1 ≤ ⌊nX / 40⌋)
    (hy1 : 1 ≤ ⌊(nY + p.height) / 40⌋) (hy2 : 1 ≤ ⌊nY / 40⌋) :
    Level.collide emptyLevel p nX nY =
      { x := nX, y := nY, velX := p.velX, velY := p.velY,
        onGround := false, onWall := false, wallDir := 0,
        bounce := false, die := false, win := false,
        collectedCoin := false, map := [[' ']], coins := [] } := by
  have hh := horizPass_empty_far p nX nY hx1 hx2
  unfold Level.collide
  rw [show emptyLevel.tileSize = 40 from rfl, hh]
  dsimp only
  rw [vertPass_empty_far p _ _ _ (by simpa using hy1) (by simpa using hy2)]
  rfl

theorem abs_mul_const_le {v a c : ℚ} (h : |v| ≤ a) (hc : 0 ≤ c) : |v * c| ≤ a * c := by
  rw [abs_mul, abs_of_nonneg hc]
  exact mul_le_mul_of_nonneg_right h hc

theorem clampStep_velX_le (p : Player) : |(clampStep p).velX| ≤ 11 / 2 := by
  unfold clampStep
  split_ifs with h1 h2
  · norm_num [abs_le]
  · norm_num [abs_le]
  · rw [abs_le]; constructor <;> linarith

theorem slideHoldStep_velX_bound (dt : ℚ) (inp : InputState) (q : Player) (a : ℚ)
    (ha : 0 ≤ a) (hq : |q.velX| ≤ a) : |(slideHoldStep dt inp q).velX| ≤ a := by
  unfold slideHoldStep
  dsimp only
  split_ifs
  · dsimp only
    calc |q.velX * (49 / 50)| ≤ a * (49 / 50) := abs_mul_const_le hq (by norm_num)
      _ ≤ a := by nlinarith
  · dsimp only
    calc |q.velX * (49 / 50)| ≤ a * (49 / 50) := abs_mul_const_le hq (by norm_num)
      _ ≤ a := by nlinarith
  · exact hq

theorem slideHoldStep_sliding_velX (dt : ℚ) (inp : InputState) (q : Player)
    (hq : q.sliding = true) : (slideHoldStep dt inp q).velX = q.velX * (49 / 50) := by
  unfold slideHoldStep
  rw [if_pos hq]
  dsimp only
  split_ifs <;> rfl

theorem slide_pair_velX_bound (dt : ℚ) (inp : InputState) (p : Player)
    (h : |p.velX| ≤ 11 / 2) :
    |(slideHoldStep dt inp (slideStartStep inp p)).velX| ≤ 637 / 100 := by
  rw [abs_le] at h
  obtain ⟨hl, hr⟩ := h
  unfold slideStartStep
  split_ifs with hs hp
  · rw [slideHoldStep_sliding_velX dt inp _ rfl]
    dsimp only
    rw [abs_le]
    constructor <;> nlinarith
  · rw [slideHoldStep_sliding_velX dt inp _ rfl]
    dsimp only
    rw [abs_le]
    constructor <;> nlinarith
  · exact slideHoldStep_velX_bound dt inp p (637 / 100) (by norm_num)
      (by rw [abs_le]; constructor <;> linarith)

theorem diveStep_velX (inp : InputState) (p : Player) : (diveStep inp p).velX = p.velX := by
  unfold diveStep; split_ifs <;> rfl

theorem coyoteStep_velX (dt : ℚ) (p : Player) : (coyoteStep dt p).velX = p.velX := by
  unfold coyoteStep; split_ifs <;> rfl

theorem bufferStep_velX (dt : ℚ) (inp : InputState) (p : Player) :
    (bufferStep dt inp p).velX = p.velX := by
  unfold bufferStep; split_ifs <;> rfl

theorem gravityStep_velX (p : Player) : (gravityStep p).velX = p.velX := by
  unfold gravityStep; rfl

theorem accelStep_wallDir (inp : InputState) (p : Player) :
    (accelStep inp p).wallDir = p.wallDir := rfl

theorem frictionStep_wallDir (inp : InputState) (p : Player) :
    (frictionStep inp p).wallDir = p.wallDir := by
  unfold frictionStep; dsimp only; split_ifs <;> rfl

theorem clampStep_wallDir (p : Player) : (clampStep p).wallDir = p.wallDir := by
  unfold clampStep; split_ifs <;> rfl

theorem slideStartStep_wallDir (inp : InputState) (p : Player) :
    (slideStartStep inp p).wallDir = p.wallDir := by
  unfold slideStartStep; split_ifs <;> rfl

theorem slideHoldStep_wallDir (dt : ℚ) (inp : InputState) (p : Player) :
    (slideHoldStep dt inp p).wallDir = p.wallDir := by
  unfold slideHoldStep; dsimp only; split_ifs <;> rfl

theorem diveStep_wallDir (inp : InputState) (p : Player) :
    (diveStep inp p).wallDir = p.wallDir := by
  unfold diveStep; split_ifs <;> rfl

theorem coyoteStep_wallDir (dt : ℚ) (p : Player) : (coyoteStep dt p).wallDir = p.wallDir := by
  unfold coyoteStep; split_ifs <;> rfl

theorem bufferStep_wallDir (dt : ℚ) (inp : InputState) (p : Player) :
    (bufferStep dt inp p).wallDir = p.wallDir := by
  unfold bufferStep; split_ifs <;> rfl

theorem jumpStep_velX_bound (p : Player)
    (hw : p.wallDir = -1 ∨ p.wallDir = 0 ∨ p.wallDir = 1)
    (h : |p.velX| ≤ 637 / 100) : |(jumpStep p).velX| ≤ 637 / 100 := by
  unfold jumpStep
  split_ifs
  · exact h
  · dsimp only
    rcases hw with hw | hw | hw <;> rw [hw] <;> norm_num [abs_le]
  · exact h
  · exact h

theorem velPhase_velX_bound (inp : InputState) (dt : ℚ) (p : Player)
    (hw : p.wallDir = -1 ∨ p.wallDir = 0 ∨ p.wallDir = 1) :
    |(velPhase inp dt p).velX| ≤ 637 / 100 := by
  unfold velPhase
  rw [gravityStep_velX]
  have h1 : |(clampStep (frictionStep inp (accelStep inp p))).velX| ≤ 11 / 2 :=
    clampStep_velX_le _
  have h2 : |(slideHoldStep dt inp (slideStartStep inp
      (clampStep (frictionStep inp (accelStep inp p))))).velX| ≤ 637 / 100 :=
    slide_pair_velX_bound dt inp _ h1
  have h5 : |(bufferStep dt inp (coyoteStep dt (diveStep inp
      (slideHoldStep dt inp (slideStartStep inp
        (clampStep (frictionStep inp (accelStep inp p)))))))).velX| ≤ 637 / 100 := by
    rw [bufferStep_velX, coyoteStep_velX, diveStep_velX]
    exact h2
  apply jumpStep_velX_bound _ _ h5
  rw [bufferStep_wallDir, coyoteStep_wallDir, diveStep_wallDir, slideHoldStep_wallDir,
    slideStartStep_wallDir, clampStep_wallDir, frictionStep_wallDir, accelStep_wallDir]
  exact hw

theorem gravityStep_velY_le (p : Player) : (gravityStep p).velY ≤ 15 := by
  unfold gravityStep
  dsimp only
  split_ifs with h
  · exact le_refl 15
  · linarith

theorem checkTile_velX_cases (rows cols : Nat) (ts w h : ℚ) (dive : Bool) (tx ty : ℤ)
    (horizontal : Bool) (st : CollState) :
    (checkTile rows cols ts w h dive tx ty horizontal st).velX = st.velX ∨
      (checkTile rows cols ts w h dive tx ty horizontal st).velX = 0 := by
  unfold checkTile
  dsimp only
  split_ifs <;> simp

theorem foldl_velX_bound (f : CollState → ℤ → CollState)
    (hf : ∀ st a, (f st a).velX = st.velX ∨ (f st a).velX = 0)
    (B : ℚ) (hB : 0 ≤ B) :
    ∀ (l : List ℤ) (st : CollState), |st.velX| ≤ B → |(l.foldl f st).velX| ≤ B := by
  intro l
  induction l with
  | nil => intro st h; simpa using h
  | cons a t ih =>
    intro st h
    simp only [List.foldl_cons]
    apply ih
    rcases hf st a with he | he
    · rw [he]; exact h
    · rw [he]; simpa using hB

theorem horizPass_velX_bound (lvl : Level) (p : Player) (nX nY B : ℚ) (hB : 0 ≤ B)
    (h : |p.velX| ≤ B) : |(horizPass lvl p nX nY).velX| ≤ B := by
  unfold horizPass
  dsimp only
  split_ifs
  · exact foldl_velX_bound _
      (fun st a => checkTile_velX_cases lvl.rows lvl.cols lvl.tileSize p.width p.height
        p.dive _ a true st) B hB _ _ h
  · exact foldl_velX_bound _
      (fun st a => checkTile_velX_cases lvl.rows lvl.cols lvl.tileSize p.width p.height
        p.dive _ a true st) B hB _ _ h
  · exact h

theorem vertPass_velX_bound (lvl : Level) (p : Player) (left right : ℤ)
    (st : CollState) (B : ℚ) (hB : 0 ≤ B)
    (h : |st.velX| ≤ B) : |(vertPass lvl p left right st).velX| ≤ B := by
  unfold vertPass
  dsimp only
  split_ifs
  · exact foldl_velX_bound _
      (fun s a => checkTile_velX_cases lvl.rows lvl.cols lvl.tileSize p.width p.height
        p.dive a _ false s) B hB _ _ h
  · exact foldl_velX_bound _
      (fun s a => checkTile_velX_cases lvl.rows lvl.cols lvl.tileSize p.width p.height
        p.dive a _ false s) B hB _ _ h
  · exact h

theorem collide_velX_bound (lvl : Level) (p : Player) (nX nY B : ℚ) (hB : 0 ≤ B)
    (h : |p.velX| ≤ B) : |(Level.collide lvl p nX nY).velX| ≤ B := by
  unfold Level.collide
  dsimp only
  exact vertPass_velX_bound lvl p _ _ _ B hB (horizPass_velX_bound lvl p nX nY B hB h)

theorem update_player_velX (dt : ℚ) (inp : InputState) (lvl : Level) (p : Player) :
    (Player.update dt inp lvl p).player.velX =
      (Level.collide lvl (velPhase inp dt p)
        ((velPhase inp dt p).x + (velPhase inp dt p).velX)
        ((velPhase inp dt p).y + (velPhase inp dt p).velY)).velX := by
  unfold Player.update
  dsimp only
  split_ifs <;> rfl

theorem forall2_append_single {α : Type} {R : α → α → Prop} {l1 l2 : List α} {a b : α}
    (h : List.Forall₂ R l1 l2) (hab : R a b) : List.Forall₂ R (l1 ++ [a]) (l2 ++ [b]) := by
  induction h with
  | nil => exact List.Forall₂.cons hab List.Forall₂.nil
  | cons hx _ ih => exact List.Forall₂.cons hx ih

theorem parseRel_refl (s : ParseState) : parseRel s s := by
  refine ⟨rfl, rfl, rfl, rfl, rfl, ?_⟩
  rw [List.forall₂_same]
  intro a _
  exact ⟨rfl, rfl, rfl, rfl, rfl, rfl, rfl⟩

theorem parseCell_rel (r1 r2 : Nat → ℚ) (ts : ℚ) (c : Nat × Nat) (s t : ParseState)
    (h : parseRel s t) : parseRel (parseCell r1 ts c s) (parseCell r2 ts c t) := by
  obtain ⟨hm, hsx, hsy, hc, hr, hh⟩ := h
  unfold parseCell
  dsimp only
  rw [hm, hr]
  split_ifs
  · exact ⟨rfl, rfl, rfl, hc, rfl, hh⟩
  · exact ⟨rfl, hsx, hsy, by rw [hc], rfl, hh⟩
  · exact ⟨rfl, hsx, hsy, hc, rfl,
      forall2_append_single hh ⟨rfl, rfl, rfl, rfl, rfl, rfl, rfl⟩⟩
  · exact ⟨rfl, hsx, hsy, hc, rfl,
      forall2_append_single hh ⟨rfl, rfl, rfl, rfl, rfl, rfl, rfl⟩⟩
  · exact ⟨rfl, hsx, hsy, hc, rfl,
      forall2_append_single hh ⟨rfl, rfl, rfl, rfl, rfl, rfl, rfl⟩⟩
  · exact ⟨rfl, hsx, hsy, hc, rfl,
      forall2_append_single hh ⟨rfl, rfl, rfl, rfl, rfl, rfl, rfl⟩⟩
  · exact ⟨hm, hsx, hsy, hc, hr, hh⟩

theorem parseFold_rel (r1 r2 : Nat → ℚ) (ts : ℚ) (cells : List (Nat × Nat)) :
    ∀ s t : ParseState, parseRel s t →
      parseRel (cells.foldl (fun st c => parseCell r1 ts c st) s)
               (cells.foldl (fun st c => parseCell r2 ts c st) t) := by
  induction cells with
  | nil => intro s t h; simpa using h
  | cons c cs ih =>
    intro s t h
    simp only [List.foldl_cons]
    exact ih _ _ (parseCell_rel r1 r2 ts c s t h)

theorem level_new_rel (tmpl : List (List Char)) (r1 r2 : Nat → ℚ) :
    (Level.new tmpl r1).map = (Level.new tmpl r2).map ∧
    (Level.new tmpl r1).spawnX = (Level.new tmpl r2).spawnX ∧
    (Level.new tmpl r1).spawnY = (Level.new tmpl r2).spawnY ∧
    (Level.new tmpl r1).coins = (Level.new tmpl r2).coins ∧
    List.Forall₂ hazardShapeEq (Level.new tmpl r1).hazards (Level.new tmpl r2).hazards := by
  unfold Level.new
  dsimp only
  have h := parseFold_rel r1 r2 40 (levelCells tmpl.length (tmpl.getD 0 []).length) _ _
    (parseRel_refl ⟨tmpl, 0, 0, [], [], 0⟩)
  obtain ⟨hm, hsx, hsy, hc, _, hh⟩ := h
  exact ⟨hm, hsx, hsy, hc, hh⟩

theorem hazardStep_fields (hz : Hazard) :
    (hazardStep hz).type = hz.type ∧ (hazardStep hz).baseX = hz.baseX ∧
      (hazardStep hz).range = hz.range ∧ (hazardStep hz).speed = hz.speed := by
  unfold hazardStep
  dsimp only
  split_ifs <;> exact ⟨rfl, rfl, rfl, rfl⟩

theorem hazardStep_x_bound (hz : Hazard) (hr : 0 ≤ hz.range)
    (hx : |hz.x - hz.baseX| ≤ hz.range) :
    |(hazardStep hz).x - hz.baseX| ≤ hz.range := by
  unfold hazardStep
  dsimp only
  split_ifs with h1 h2 h3
  · dsimp only; rw [abs_le]; constructor <;> linarith
  · dsimp only; rw [abs_le]; constructor <;> linarith
  · dsimp only; rw [abs_le]; constructor <;> push_neg at h2 h3 <;> linarith
  · exact hx

theorem hazardIter_fields (n : Nat) (hz : Hazard) :
    (hazardStep^[n] hz).type = hz.type ∧ (hazardStep^[n] hz).baseX = hz.baseX ∧
      (hazardStep^[n] hz).range = hz.range := by
  induction n with
  | zero => exact ⟨rfl, rfl, rfl⟩
  | succ n ih =>
    rw [Function.iterate_succ_apply']
    obtain ⟨ht, hb, hr⟩ := ih
    obtain ⟨ht2, hb2, hr2, _⟩ := hazardStep_fields (hazardStep^[n] hz)
    exact ⟨ht2.trans ht, hb2.trans hb, hr2.trans hr⟩

theorem hazardIter_x_bound (n : Nat) (hz : Hazard) (hr : 0 ≤ hz.range)
    (hx : |hz.x - hz.baseX| ≤ hz.range) :
    |(hazardStep^[n] hz).x - hz.baseX| ≤ hz.range := by
  induction n with
  | zero => exact hx
  | succ n ih =>
    rw [Function.iterate_succ_apply']
    obtain ⟨_, hb, hrr⟩ := hazardIter_fields n hz
    have := hazardStep_x_bound (hazardStep^[n] hz) (by rw [hrr]; exact hr)
      (by rw [hrr, hb]; exact ih)
    rw [hrr, hb] at this
    exact this

theorem parseCell_hazards_good (r : Nat → ℚ) (c : Nat × Nat) (s : ParseState)
    (hs : ∀ hz ∈ s.hazards, hz.type = 'H' ∧ hz.range = 40 * 3 ∧ hz.x = hz.baseX) :
    ∀ hz ∈ (parseCell r 40 c s).hazards,
      hz.type = 'H' ∧ hz.range = 40 * 3 ∧ hz.x = hz.baseX := by
  unfold parseCell
  dsimp only
  split_ifs <;> intro hz hmem
  · exact hs hz hmem
  · exact hs hz hmem
  · rcases List.mem_append.mp hmem with hold | hnew
    · exact hs hz hold
    · rw [List.mem_singleton.mp hnew]; exact ⟨rfl, rfl, rfl⟩
  · rcases List.mem_append.mp hmem with hold | hnew
    · exact hs hz hold
    · rw [List.mem_singleton.mp hnew]; exact ⟨rfl, rfl, rfl⟩
  · exact hs hz hmem

theorem parseFold_hazards_good (r : Nat → ℚ) (cells : List (Nat × Nat)) :
    ∀ s : ParseState,
      (∀ hz ∈ s.hazards, hz.type = 'H' ∧ hz.range = 40 * 3 ∧ hz.x = hz.baseX) →
      ∀ hz ∈ (cells.foldl (fun st c => parseCell r 40 c st) s).hazards,
        hz.type = 'H' ∧ hz.range = 40 * 3 ∧ hz.x = hz.baseX := by
  induction cells with
  | nil => intro s hs; simpa using hs
  | cons c cs ih =>
    intro s hs
    simp only [List.foldl_cons]
    exact ih _ (parseCell_hazards_good r c s hs)

theorem level_new_hazards_good (tmpl : List (List Char)) (r : Nat → ℚ) :
    ∀ hz ∈ (Level.new tmpl r).hazards,
      hz.type = 'H' ∧ hz.range = 40 * 3 ∧ hz.x = hz.baseX := by
  unfold Level.new
  dsimp only
  exact parseFold_hazards_good r _ _ (by intro hz hmem; cases hmem)

theorem updateHazards_iterate_hazards (dt : ℚ) (lvl : Level) (n : Nat) :
    ((fun l => Level.updateHazards dt l)^[n] lvl).hazards =
      lvl.hazards.map (hazardStep^[n]) := by
  induction n with
  | zero => simp
  | succ n ih =>
    rw [Function.iterate_succ_apply']
    have hh : (Level.updateHazards dt ((fun l => Level.updateHazards dt l)^[n] lvl)).hazards
        = ((fun l => Level.updateHazards dt l)^[n] lvl).hazards.map hazardStep := rfl
    rw [show ((fun l => Level.updateHazards dt l)
          ((fun l => Level.updateHazards dt l)^[n] lvl)).hazards
        = (Level.updateHazards dt ((fun l => Level.updateHazards dt l)^[n] lvl)).hazards
        from rfl, hh, ih, List.map_map, Function.iterate_succ']

/-! ### Concrete evaluation lemmas for the fixtures -/

theorem velPhase_pSlide :
    velPhase inpRightDown 1 pSlide =
      ⟨1000, 520, 24, 20, 40, 637/100, 9/20, true, false, 0, true, 14, false, 6, 0⟩ := by
  norm_num [velPhase, accelStep, frictionStep, clampStep, slideStartStep, slideHoldStep,
    diveStep, coyoteStep, bufferStep, jumpStep, gravityStep, moveOf, inpRightDown, pSlide,
    abs_of_nonneg (by norm_num : (0:ℚ) ≤ 11/2)]

theorem velPhase_pAir :
    velPhase inpRight 2 pAir =
      ⟨1000, 500, 24, 40, 40, 2/5, 9/20, false, false, 0, false, 0, false, 0, 0⟩ := by
  norm_num [velPhase, accelStep, frictionStep, clampStep, slideStartStep, slideHoldStep,
    diveStep, coyoteStep, bufferStep, jumpStep, gravityStep, moveOf, inpRight, pAir]

theorem update_pSlide_velX :
    (Player.update 1 inpRightDown emptyLevel pSlide).player.velX = 637 / 100 := by
  rw [update_player_velX, velPhase_pSlide]
  dsimp only
  rw [collide_empty_far (⟨1000, 520, 24, 20, 40, 637/100, 9/20, true, false, 0, true, 14,
      false, 6, 0⟩ : Player) (1000 + 637/100) (520 + 9/20)
    (by norm_num) (by norm_num) (by norm_num) (by norm_num)]

theorem update_pAir_vel :
    (Player.update 2 inpRight emptyLevel pAir).player.velX = 2 / 5 ∧
      (Player.update 2 inpRight emptyLevel pAir).player.velY = 9 / 20 := by
  unfold Player.update
  dsimp only
  rw [velPhase_pAir]
  dsimp only
  rw [collide_empty_far (⟨1000, 500, 24, 40, 40, 2/5, 9/20, false, false, 0, false, 0,
      false, 0, 0⟩ : Player) (1000 + 2/5) (500 + 9/20)
    (by norm_num) (by norm_num) (by norm_num) (by norm_num)]
  norm_num

theorem horizPass_pWall :
    horizPass lvlWall pWall 62 80 =
      ⟨56, 80, 0, 5, false, true, 1, false, false, false,
        [[' ', ' ', ' ', ' '], [' ', ' ', ' ', ' '],
         [' ', ' ', '#', ' '], [' ', ' ', 'S', ' ']]⟩ := by
  norm_num [horizPass, checkTile, isSolid, lvlWall, pWall,
    show Int.toNat 2 = 2 from rfl,
    show intRange 2 2 = [2] from by decide,
    show getCell [[' ', ' ', ' ', ' '], [' ', ' ', ' ', ' '],
      [' ', ' ', '#', ' '], [' ', ' ', 'S', ' ']] 2 2 = '#' from by decide]

theorem collide_pWall_die : (Level.collide lvlWall pWall 62 80).die = false := by
  unfold Level.collide
  dsimp only
  rw [horizPass_pWall]
  norm_num [vertPass, checkTile, isSolid, coinPass, hazardPass, lvlWall, pWall,
    show Int.toNat 1 = 1 from rfl, show Int.toNat 3 = 3 from rfl,
    show intRange 1 1 = [1] from by decide,
    show getCell [[' ', ' ', ' ', ' '], [' ', ' ', ' ', ' '],
      [' ', ' ', '#', ' '], [' ', ' ', 'S', ' ']] 3 1 = ' ' from by decide,
    show ¬((' ' = '#' ∨ ' ' = 'X') ∨ ' ' = 'B') from by decide,
    show ¬(' ' = 'S') from by decide, show ¬(' ' = 'F') from by decide]

theorem collideIndepSpec_pWall_die : (collideIndepSpec lvlWall pWall 62 80).die = true := by
  unfold collideIndepSpec
  dsimp only
  rw [horizPass_pWall]
  norm_num [vertPass, checkTile, isSolid, coinPass, hazardPass, lvlWall, pWall,
    show Int.toNat 1 = 1 from rfl, show Int.toNat 2 = 2 from rfl,
    show Int.toNat 3 = 3 from rfl,
    show intRange 1 2 = [1, 2] from by decide,
    show getCell [[' ', ' ', ' ', ' '], [' ', ' ', ' ', ' '],
      [' ', ' ', '#', ' '], [' ', ' ', 'S', ' ']] 3 1 = ' ' from by decide,
    show getCell [[' ', ' ', ' ', ' '], [' ', ' ', ' ', ' '],
      [' ', ' ', '#', ' '], [' ', ' ', 'S', ' ']] 3 2 = 'S' from by decide,
    show ¬((' ' = '#' ∨ ' ' = 'X') ∨ ' ' = 'B') from by decide,
    show ¬(' ' = 'S') from by decide, show ¬(' ' = 'F') from by decide,
    show ¬(('S' = '#' ∨ 'S' = 'X') ∨ 'S' = 'B') from by decide]

/-! ### Claim theorems -/

/-- C1 (amended): on every tick of `Player.update`, the horizontal speed
satisfies `|vx| ≤ 5.5` immediately after the clamp step, and `vy ≤ 15` holds
after the gravity clamp; however, the `+1` slide boost is applied after the
clamp, so the end-of-tick horizontal speed is only bounded by
`(5.5 + 1) · 0.98 = 6.37`, not by `5.5`.  The `wallDir` hypothesis is the
state invariant that wall direction is one of -1, 0, 1 (the only values the
resolver ever assigns). -/
theorem update_speed_bounds (p : Player) (inp : InputState) (dt : ℚ) (lvl : Level)
    (hw : p.wallDir = -1 ∨ p.wallDir = 0 ∨ p.wallDir = 1) :
    |(clampStep (frictionStep inp (accelStep inp p))).velX| ≤ 11 / 2 ∧
    (velPhase inp dt p).velY ≤ 15 ∧
    |(Player.update dt inp lvl p).player.velX| ≤ 637 / 100 := by
  refine ⟨clampStep_velX_le _, ?_, ?_⟩
  · unfold velPhase; exact gravityStep_velY_le _
  · rw [update_player_velX]
    exact collide_velX_bound _ _ _ _ _ (by norm_num) (velPhase_velX_bound inp dt p hw)

/-- Witness for C1: the bounds instantiated on a concrete grounded player
holding right and down on an empty level. -/
theorem update_speed_bounds_witness :
    |(clampStep (frictionStep inpRightDown (accelStep inpRightDown pSlide))).velX| ≤ 11 / 2 ∧
    (velPhase inpRightDown 1 pSlide).velY ≤ 15 ∧
    |(Player.update 1 inpRightDown emptyLevel pSlide).player.velX| ≤ 637 / 100 :=
  update_speed_bounds pSlide inpRightDown 1 emptyLevel (Or.inr (Or.inl rfl))

/-- Counterexample to C1 as stated: a grounded player at the speed cap that
initiates a slide ends the tick with `vx = 6.37 > 5.5`, so the claimed
`|vx| ≤ 5.5` after the gravity/clamping steps fails on slide ticks. -/
theorem slide_tick_velX_exceeds_cap :
    (Player.update 1 inpRightDown emptyLevel pSlide).player.velX = 637 / 100 ∧
    ¬|(637 : ℚ) / 100| ≤ 11 / 2 := by
  refine ⟨update_pSlide_velX, ?_⟩
  rw [abs_of_nonneg (by norm_num)]
  norm_num

/-- C2 (amended): the per-tick velocity increments from input and gravity
are constants: the acceleration step adds exactly `direction * 0.4` and the
gravity step yields `min (vy + 0.45) 15`.  Neither step takes `dt` at all;
`dt` only scales the slide, coyote and jump-buffer timers. -/
theorem accel_gravity_increments_const (p : Player) (inp : InputState) :
    (accelStep inp p).velX = p.velX + moveOf inp * (2 / 5) ∧
    (gravityStep p).velY = min (p.velY + 9 / 20) 15 := by
  constructor
  · rfl
  · unfold gravityStep
    dsimp only
    split_ifs with h
    · exact (min_eq_right (by linarith)).symm
    · exact (min_eq_left (by linarith)).symm

/-- Counterexample to C2 as stated: with `dt = 2`, an airborne player holding
right gains `vx = 0.4` and `vy = 0.45` in one tick, not the claimed
`direction * 0.4 * dt = 0.8` and `0.45 * dt = 0.9`. -/
theorem tick_increments_not_dt_scaled :
    (Player.update 2 inpRight emptyLevel pAir).player.velX = 2 / 5 ∧
    (Player.update 2 inpRight emptyLevel pAir).player.velY = 9 / 20 ∧
    ¬((2 : ℚ) / 5 = 1 * (2 / 5) * 2 ∧ (9 : ℚ) / 20 = 0 + 9 / 20 * 2) := by
  refine ⟨update_pAir_vel.1, update_pAir_vel.2, ?_⟩
  intro hcon
  have h1 := hcon.1
  norm_num at h1

/-- C3 (amended): `Level.collide` resolves the axes sequentially — the
vertical sweep's column span is computed from the x already corrected by the
horizontal sweep.  Whenever the horizontal sweep leaves x uncorrected, the
result coincides with the spec's independent-axes resolver
`collideIndepSpec`, which derives that span from the proposed x. -/
theorem collide_agrees_with_indep_when_uncorrected (lvl : Level) (p : Player)
    (nX nY : ℚ) (h : (horizPass lvl p nX nY).px = nX) :
    Level.collide lvl p nX nY = collideIndepSpec lvl p nX nY := by
  unfold Level.collide collideIndepSpec
  dsimp only
  rw [h]

/-- Witness for C3: a motionless player far from any tile is resolved
identically by the source resolver and the independent-axes resolver. -/
theorem collide_agrees_witness :
    Level.collide emptyLevel pAir 5 5 = collideIndepSpec emptyLevel pAir 5 5 :=
  collide_agrees_with_indep_when_uncorrected emptyLevel pAir 5 5
    (by norm_num [horizPass, pAir])

/-- Counterexample to C3 as stated: moving right into a wall in `lvlWall`,
the source resolver clamps x to 56 first and its vertical sweep then scans
columns 1..1, missing the hazard at column 2; the independent-axes resolver
scans columns 1..2 of the proposed x and dies.  The two resolvers disagree,
so the vertical pass does not use the proposed x. -/
theorem vertical_span_uses_corrected_x :
    (Level.collide lvlWall pWall 62 80).die = false ∧
    (collideIndepSpec lvlWall pWall 62 80).die = true ∧
    Level.collide lvlWall pWall 62 80 ≠ collideIndepSpec lvlWall pWall 62 80 := by
  refine ⟨collide_pWall_die, collideIndepSpec_pWall_die, ?_⟩
  intro heq
  have hcong := congrArg CollResult.die heq
  rw [collide_pWall_die, collideIndepSpec_pWall_die] at hcong
  exact Bool.false_ne_true hcong

/-- C9 (confirmed): a tile query outside the grid bounds during collision
resolution leaves the scan state completely unchanged — no position
correction, no flag, no error — making `Level.collide` total over all
proposed positions. -/
theorem collide_oob_query_nonsolid (rows cols : Nat) (ts w h : ℚ) (dive : Bool)
    (tx ty : ℤ) (horizontal : Bool) (st : CollState)
    (hout : ty < 0 ∨ (rows : ℤ) ≤ ty ∨ tx < 0 ∨ (cols : ℤ) ≤ tx) :
    checkTile rows cols ts w h dive tx ty horizontal st = st :=
  checkTile_oob rows cols ts w h dive tx ty horizontal st hout

/-- Witness for C9: a query at row -1, column 5 of a 4×4 grid is ignored. -/
theorem collide_oob_query_nonsolid_witness :
    checkTile 4 4 40 24 40 false 5 (-1) true stWitness = stWitness :=
  collide_oob_query_nonsolid 4 4 40 24 40 false 5 (-1) true stWitness
    (Or.inl (by norm_num))

/-- C4 (confirmed): `generate(0)` yields a grid whose bottom row is entirely
solid, with the spawn marker at column 1 and the goal at column 38 of the
row above ground, exactly 2 static hazard tiles, exactly one bounce pad at
the centre column 20, no breakable tiles, exactly 3 coins, two 4-tile
floating platforms (columns 5-8 and 17-20 of row 7), and no moving
hazards. -/
theorem generateLevel_zero_layout :
    (Game.generateLevel 0).getD (12 - 1) [] = List.replicate 40 '#' ∧
    getCell (Game.generateLevel 0) (12 - 2) 1 = 'P' ∧
    getCell (Game.generateLevel 0) (12 - 2) (40 - 2) = 'F' ∧
    countCh (Game.generateLevel 0) 'S' = 2 ∧
    getCell (Game.generateLevel 0) (12 - 2) (40 / 2) = 'B' ∧
    countCh (Game.generateLevel 0) 'B' = 1 ∧
    countCh (Game.generateLevel 0) 'X' = 0 ∧
    countCh (Game.generateLevel 0) 'C' = 3 ∧
    (Game.generateLevel 0).getD (12 - 5) [] =
      (List.replicate 5 ' ' ++ List.replicate 4 '#') ++
        (List.replicate 8 ' ' ++ List.replicate 4 '#') ++ List.replicate 19 ' ' ∧
    countCh (Game.generateLevel 0) 'H' = 0 := by
  decide

/-- C10 (confirmed): at index 18 (`18 mod 3 = 0`) the first static hazard is
placed at column `(18*7) mod 36 + 2 = 20`, which is the centre column
`40 / 2`; the bounce pad placed afterwards overwrites it, so the final grid
holds only 2 hazard tiles, strictly fewer than `2 + floor(18/10) = 3`. -/
theorem generateLevel_bounce_overwrites_hazard :
    (18 * 7) % (40 - 4) + 2 = 40 / 2 ∧
    18 % 3 = 0 ∧
    getCell (genHazards 18 genBase) (12 - 2) (40 / 2) = 'S' ∧
    getCell (Game.generateLevel 18) (12 - 2) (40 / 2) = 'B' ∧
    countCh (Game.generateLevel 18) 'S' = 2 ∧
    countCh (Game.generateLevel 18) 'S' < 2 + 18 / 10 := by
  decide

theorem level_new_tmplH_zero :
    Level.new tmplH rngZero =
      ⟨[[' ']], 1, 1, 40, 0, 0, [], [⟨'H', 0, 0, 0, 40, 40, 120, -1, 2⟩]⟩ := by
  norm_num [Level.new, parseCell, tmplH, rngZero,
    show levelCells 1 1 = [(0, 0)] from by decide,
    show getCell [['H']] 0 0 = 'H' from rfl,
    show ¬('H' = 'P') from by decide, show ¬('H' = 'C') from by decide,
    show setCell [['H']] 0 0 ' ' = [[' ']] from rfl]

theorem level_new_tmplH_flip :
    Level.new tmplH rngDirFlip =
      ⟨[[' ']], 1, 1, 40, 0, 0, [], [⟨'H', 0, 0, 0, 40, 40, 120, 1, 2⟩]⟩ := by
  norm_num [Level.new, parseCell, tmplH, rngDirFlip,
    show levelCells 1 1 = [(0, 0)] from by decide,
    show getCell [['H']] 0 0 = 'H' from rfl,
    show ¬('H' = 'P') from by decide, show ¬('H' = 'C') from by decide,
    show setCell [['H']] 0 0 ' ' = [[' ']] from rfl]

theorem updateHazards_tmplH_one :
    ((fun l => Level.updateHazards 0 l)^[1] (Level.new tmplH rngZero)).hazards =
      [hzWitness] := by
  rw [Function.iterate_one]
  show (Level.updateHazards 0 (Level.new tmplH rngZero)).hazards = [hzWitness]
  rw [level_new_tmplH_zero]
  norm_num [Level.updateHazards, hazardStep, hzWitness]

theorem hazardStep_branches (hz : Hazard) (ht : hz.type = 'H') :
    (hz.x + hz.dir * hz.speed < hz.baseX - hz.range →
      (hazardStep hz).x = hz.baseX - hz.range ∧ (hazardStep hz).dir = -hz.dir) ∧
    (¬hz.x + hz.dir * hz.speed < hz.baseX - hz.range →
      hz.x + hz.dir * hz.speed > hz.baseX + hz.range →
      (hazardStep hz).x = hz.baseX + hz.range ∧ (hazardStep hz).dir = -hz.dir) ∧
    (¬hz.x + hz.dir * hz.speed < hz.baseX - hz.range →
      ¬hz.x + hz.dir * hz.speed > hz.baseX + hz.range →
      (hazardStep hz).x = hz.x + hz.dir * hz.speed ∧ (hazardStep hz).dir = hz.dir) := by
  unfold hazardStep
  rw [if_pos ht]
  dsimp only
  refine ⟨fun h1 => ?_, fun h1 h2 => ?_, fun h1 h2 => ?_⟩
  · rw [if_pos h1]
    exact ⟨rfl, by dsimp only; ring⟩
  · rw [if_neg h1, if_pos h2]
    exact ⟨rfl, by dsimp only; ring⟩
  · rw [if_neg h1, if_neg h2]
    exact ⟨rfl, rfl⟩

/-- C5 (amended): a `Level` instance built from a template is deterministic
in everything except the hazards' randomised `speed` and initial direction
`dir`: the tile map, dimensions, tile size, spawn point, coin list, and all
remaining hazard fields (base position, row, start x, size, range) agree for
any two random streams. -/
theorem level_instance_placement_deterministic (tmpl : List (List Char))
    (r1 r2 : Nat → ℚ) :
    (Level.new tmpl r1).map = (Level.new tmpl r2).map ∧
    (Level.new tmpl r1).rows = (Level.new tmpl r2).rows ∧
    (Level.new tmpl r1).cols = (Level.new tmpl r2).cols ∧
    (Level.new tmpl r1).tileSize = (Level.new tmpl r2).tileSize ∧
    (Level.new tmpl r1).spawnX = (Level.new tmpl r2).spawnX ∧
    (Level.new tmpl r1).spawnY = (Level.new tmpl r2).spawnY ∧
    (Level.new tmpl r1).coins = (Level.new tmpl r2).coins ∧
    List.Forall₂ hazardShapeEq (Level.new tmpl r1).hazards (Level.new tmpl r2).hazards := by
  obtain ⟨hm, hsx, hsy, hc, hh⟩ := level_new_rel tmpl r1 r2
  exact ⟨hm, rfl, rfl, rfl, hsx, hsy, hc, hh⟩

/-- Counterexample to C5 as stated: the template `[['H']]` parsed under two
random streams that agree on the speed draw but differ on the direction draw
yields instances with identical hazard speeds yet opposite initial
directions, so two instances from the same template can differ in more than
hazard speeds. -/
theorem hazard_dir_depends_on_rng :
    (Level.new tmplH rngZero).hazards.map Hazard.speed =
      (Level.new tmplH rngDirFlip).hazards.map Hazard.speed ∧
    (Level.new tmplH rngZero).hazards.map Hazard.dir ≠
      (Level.new tmplH rngDirFlip).hazards.map Hazard.dir := by
  rw [level_new_tmplH_zero, level_new_tmplH_flip]
  constructor
  · rfl
  · intro h
    simp only [List.map_cons, List.map_nil, List.cons.injEq, and_true] at h
    norm_num at h

/-- C6 (confirmed): for every moving hazard of a loaded level and every
number of `updateHazards` ticks, the hazard's x stays within
`[baseX - range, baseX + range]`; a step that would cross a boundary clamps
exactly to that boundary and flips the direction sign, and a step that stays
within the boundaries keeps the direction unchanged. -/
theorem moving_hazard_range_invariant (tmpl : List (List Char)) (s : Nat → ℚ)
    (dt : ℚ) (n : Nat) (hz : Hazard)
    (hmem : hz ∈ ((fun l => Level.updateHazards dt l)^[n] (Level.new tmpl s)).hazards) :
    |hz.x - hz.baseX| ≤ hz.range ∧
    (hz.x + hz.dir * hz.speed < hz.baseX - hz.range →
      (hazardStep hz).x = hz.baseX - hz.range ∧ (hazardStep hz).dir = -hz.dir) ∧
    (¬hz.x + hz.dir * hz.speed < hz.baseX - hz.range →
      hz.x + hz.dir * hz.speed > hz.baseX + hz.range →
      (hazardStep hz).x = hz.baseX + hz.range ∧ (hazardStep hz).dir = -hz.dir) ∧
    (¬hz.x + hz.dir * hz.speed < hz.baseX - hz.range →
      ¬hz.x + hz.dir * hz.speed > hz.baseX + hz.range →
      (hazardStep hz).x = hz.x + hz.dir * hz.speed ∧ (hazardStep hz).dir = hz.dir) := by
  rw [updateHazards_iterate_hazards] at hmem
  obtain ⟨hz0, hmem0, rfl⟩ := List.mem_map.mp hmem
  obtain ⟨ht0, hr0, hx0⟩ := level_new_hazards_good tmpl s hz0 hmem0
  obtain ⟨htn, hbn, hrn⟩ := hazardIter_fields n hz0
  have hrange0 : (0 : ℚ) ≤ hz0.range := by rw [hr0]; norm_num
  refine ⟨?_, ?_⟩
  · rw [hbn, hrn]
    exact hazardIter_x_bound n hz0 hrange0 (by rw [hx0, sub_self, abs_zero]; exact hrange0)
  · exact hazardStep_branches (hazardStep^[n] hz0) (htn.trans ht0)

/-- Witness for C6: the hazard of the one-cell template after one tick sits
at x = -2, within ±120 of its base 0, and its next step keeps the direction
since no boundary is crossed. -/
theorem moving_hazard_range_invariant_witness :
    (hzWitness ∈ ((fun l => Level.updateHazards 0 l)^[1] (Level.new tmplH rngZero)).hazards) ∧
    (|hzWitness.x - hzWitness.baseX| ≤ hzWitness.range ∧
    (hzWitness.x + hzWitness.dir * hzWitness.speed < hzWitness.baseX - hzWitness.range →
      (hazardStep hzWitness).x = hzWitness.baseX - hzWitness.range ∧
        (hazardStep hzWitness).dir = -hzWitness.dir) ∧
    (¬hzWitness.x + hzWitness.dir * hzWitness.speed < hzWitness.baseX - hzWitness.range →
      hzWitness.x + hzWitness.dir * hzWitness.speed > hzWitness.baseX + hzWitness.range →
      (hazardStep hzWitness).x = hzWitness.baseX + hzWitness.range ∧
        (hazardStep hzWitness).dir = -hzWitness.dir) ∧
    (¬hzWitness.x + hzWitness.dir * hzWitness.speed < hzWitness.baseX - hzWitness.range →
      ¬hzWitness.x + hzWitness.dir * hzWitness.speed > hzWitness.baseX + hzWitness.range →
      (hazardStep hzWitness).x = hzWitness.x + hzWitness.dir * hzWitness.speed ∧
        (hazardStep hzWitness).dir = hzWitness.dir)) :=
  ⟨by rw [updateHazards_tmplH_one]; exact List.mem_singleton.mpr rfl,
   moving_hazard_range_invariant tmplH rngZero 0 1 hzWitness
     (by rw [updateHazards_tmplH_one]; exact List.mem_singleton.mpr rfl)⟩

/-- C7 (confirmed): `completeLevel` updates the stored best time of a level
to the minimum of the observed finish time and the previous best — it writes
a new value only when the finish time is strictly smaller (or when no best
exists), leaves every other level untouched, and when the finish time is not
an improvement the whole mapping is unchanged; hence `bestTimes[L]` is
monotonically non-increasing over repeated completions. -/
theorem bestTimes_monotone_update (bt : Nat → Option ℚ) (L i : Nat) (t : ℚ) :
    (Game.completeLevelBest bt L t i =
      if i = L then
        (match bt L with
         | none => some t
         | some b => some (min t b))
      else bt i) ∧
    (∀ b : ℚ, bt L = some b →
      min t b ≤ b ∧ (¬t < b → Game.completeLevelBest bt L t = bt)) := by
  constructor
  · unfold Game.completeLevelBest
    split_ifs with hi
    · cases hbt : bt L with
      | none => rfl
      | some b =>
        have hmin : (if t < b then t else b) = min t b := by
          rcases lt_trichotomy t b with h | h | h
          · rw [if_pos h, min_eq_left h.le]
          · rw [h, if_neg (lt_irrefl b), min_self]
          · rw [if_neg (not_lt.mpr h.le), min_eq_right h.le]
        simp only [hbt]
        rw [← apply_ite Option.some, hmin]
    · rfl
  · intro b hb
    refine ⟨min_le_right t b, fun hnot => ?_⟩
    funext j
    unfold Game.completeLevelBest
    split_ifs with hj
    · subst hj
      simp only [hb, if_neg hnot]
    · rfl

/-- Witness for C7: with a stored best of 10 for level 0 and a slower finish
time 12, the mapping is unchanged and level 1 is untouched. -/
theorem bestTimes_monotone_update_witness :
    (Game.completeLevelBest btWitness 0 12 1 =
      if 1 = 0 then
        (match btWitness 0 with
         | none => some (12 : ℚ)
         | some b => some (min 12 b))
      else btWitness 1) ∧
    (∀ b : ℚ, btWitness 0 = some b →
      min 12 b ≤ b ∧ (¬(12 : ℚ) < b → Game.completeLevelBest btWitness 0 12 = btWitness)) :=
  bestTimes_monotone_update btWitness 0 1 12

/-- C8 (confirmed): after any sequence of in-play mutations (breakable tiles
cleared, coins collected), resetting the level rebuilds the instance from the
stored template, whose strings gameplay never mutates: the reset instance's
tile map and coin list (all `collected` flags false) equal those of a freshly
parsed copy of the template under any random stream. -/
theorem reset_restores_template_state (ms : List PlayMut) (g : GameState)
    (r1 r2 : Nat → ℚ) (h : g.currentLevelIndex < g.levels.length) :
    (Game.resetLevel r1 (applyMuts ms g)).level.map =
      (Level.new (g.levels.getD g.currentLevelIndex []) r2).map ∧
    (Game.resetLevel r1 (applyMuts ms g)).level.coins =
      (Level.new (g.levels.getD g.currentLevelIndex []) r2).coins := by
  have hpres : ∀ (gs : GameState),
      (applyMuts ms gs).levels = gs.levels ∧
        (applyMuts ms gs).currentLevelIndex = gs.currentLevelIndex := by
    induction ms with
    | nil => intro gs; exact ⟨rfl, rfl⟩
    | cons m rest ih =>
      intro gs
      have hstep : (applyMut m gs).levels = gs.levels ∧
          (applyMut m gs).currentLevelIndex = gs.currentLevelIndex := by
        cases m <;> exact ⟨rfl, rfl⟩
      have hrest := ih (applyMut m gs)
      exact ⟨hrest.1.trans hstep.1, hrest.2.trans hstep.2⟩
  obtain ⟨hl, hi⟩ := hpres g
  unfold Game.resetLevel Game.startGame
  dsimp only
  rw [hl, hi, if_neg (not_le.mpr h)]
  obtain ⟨hm, _, _, hc, _⟩ := level_new_rel (g.levels.getD g.currentLevelIndex []) r1 r2
  exact ⟨hm, hc⟩

/-- Witness for C8: breaking a tile in the live instance and resetting
restores the stored single-coin template under fresh randomness. -/
theorem reset_restores_template_state_witness :
    (Game.resetLevel rngZero (applyMuts [PlayMut.breakTile 0 0] gWitness)).level.map =
      (Level.new (gWitness.levels.getD gWitness.currentLevelIndex []) rngDirFlip).map ∧
    (Game.resetLevel rngZero (applyMuts [PlayMut.breakTile 0 0] gWitness)).level.coins =
      (Level.new (gWitness.levels.getD gWitness.currentLevelIndex []) rngDirFlip).coins :=
  reset_restores_template_state [PlayMut.breakTile 0 0] gWitness rngZero rngDirFlip
    (by norm_num [gWitness])
